import Mathlib

/-!
Verification of the state-fusion pipeline of the cillium-hubble-agent
repository, as a shallow embedding in Lean 4.

Python dicts keyed by strings are embedded as association lists
(`List (String × α)`) with insert-overwrites and delete semantics
(`dinsert`, `derase`, `dlookup`).  Wall-clock times are passed in
explicitly (`Nat` ticks or `ℚ` seconds).  Float arithmetic is embedded
as exact rational arithmetic.
-/

namespace NetMon

/-! ## Dictionaries (Python `dict[str, α]`) -/

/-- Lookup in an association list, first match wins (Python `d.get(k)`). -/
def dlookup {α : Type} : List (String × α) → String → Option α
  | [], _ => none
  | p :: rest, k => if p.1 = k then some p.2 else dlookup rest k

/-- Remove all entries for a key (Python `del d[k]` / `d.pop(k, None)`). -/
def derase {α : Type} : List (String × α) → String → List (String × α)
  | [], _ => []
  | p :: rest, k => if p.1 = k then derase rest k else p :: derase rest k

/-- Insert-or-overwrite (Python `d[k] = v`). -/
def dinsert {α : Type} (m : List (String × α)) (k : String) (v : α) :
    List (String × α) :=
  (k, v) :: derase m k

theorem dlookup_dinsert_self {α : Type} (m : List (String × α)) (k : String) (v : α) :
    dlookup (dinsert m k v) k = some v := by
  simp [dinsert, dlookup]

theorem dlookup_derase_ne {α : Type} (m : List (String × α)) (k k' : String)
    (h : k' ≠ k) : dlookup (derase m k) k' = dlookup m k' := by
  induction m with
  | nil => rfl
  | cons p rest ih =>
      by_cases hp : p.1 = k
      · have hne : p.1 ≠ k' := fun hh => h (hh.symm.trans hp)
        rw [show derase (p :: rest) k = derase rest k by simp [derase, hp], ih]
        simp [dlookup, hne]
      · rw [show derase (p :: rest) k = p :: derase rest k by simp [derase, hp]]
        by_cases hq : p.1 = k'
        · simp [dlookup, hq]
        · simp [dlookup, hq, ih]

theorem dlookup_dinsert_ne {α : Type} (m : List (String × α)) (k k' : String) (v : α)
    (h : k' ≠ k) : dlookup (dinsert m k v) k' = dlookup m k' := by
  simp [dinsert, dlookup, Ne.symm h, dlookup_derase_ne m k k' h]

theorem dlookup_derase_self {α : Type} (m : List (String × α)) (k : String) :
    dlookup (derase m k) k = none := by
  induction m with
  | nil => rfl
  | cons p rest ih =>
      by_cases hp : p.1 = k
      · simpa [derase, hp] using ih
      · simpa [derase, hp, dlookup] using ih

theorem mem_derase {α : Type} {m : List (String × α)} {k : String}
    {p : String × α} (h : p ∈ derase m k) : p ∈ m ∧ p.1 ≠ k := by
  induction m with
  | nil => cases h
  | cons q rest ih =>
      by_cases hq : q.1 = k
      · simp only [derase, hq, if_pos rfl] at h
        obtain ⟨h1, h2⟩ := ih h
        exact ⟨List.mem_cons_of_mem _ h1, h2⟩
      · simp only [derase, if_neg hq] at h
        rcases List.mem_cons.mp h with h | h
        · exact ⟨h ▸ List.mem_cons_self _ _, h ▸ hq⟩
        · obtain ⟨h1, h2⟩ := ih h
          exact ⟨List.mem_cons_of_mem _ h1, h2⟩

theorem mem_dinsert {α : Type} {m : List (String × α)} {k : String} {v : α}
    {p : String × α} (h : p ∈ dinsert m k v) :
    p = (k, v) ∨ (p ∈ m ∧ p.1 ≠ k) := by
  rcases List.mem_cons.mp h with h | h
  · exact Or.inl h
  · exact Or.inr (mem_derase h)

theorem dlookup_mem {α : Type} {m : List (String × α)} {k : String} {v : α}
    (h : dlookup m k = some v) : (k, v) ∈ m := by
  induction m with
  | nil => cases h
  | cons p rest ih =>
      by_cases hp : p.1 = k
      · simp only [dlookup, if_pos hp] at h
        cases h
        exact hp ▸ List.mem_cons_self _ _
      · simp only [dlookup, if_neg hp] at h
        exact List.mem_cons_of_mem _ (ih h)

/-! ## Counter sampler (`src/agent/sysfs_poller.py`) -/

/-- Embeds `sysfs_poller.TrafficState`. -/
inductive TrafficState
  | ACTIVE
  | IDLE
  | UNKNOWN
deriving DecidableEq, Repr

/-- Embeds `sysfs_poller.InterfaceStats`: raw counters read from sysfs, with the
time of the read in seconds. -/
structure InterfaceStats where
  rx_bytes : Nat
  tx_bytes : Nat
  rx_packets : Nat
  tx_packets : Nat
  rx_errors : Nat
  tx_errors : Nat
  rx_dropped : Nat
  tx_dropped : Nat
  timestamp : ℚ
deriving DecidableEq, Repr

/-- Embeds `sysfs_poller.TrafficMetrics` (float fields as exact rationals). -/
structure TrafficMetrics where
  interface : String
  rx_bps : ℚ
  tx_bps : ℚ
  rx_pps : ℚ
  tx_pps : ℚ
  total_rx_bytes : Nat
  total_tx_bytes : Nat
  state : TrafficState
  utilization : ℚ
  timestamp : ℚ
deriving DecidableEq, Repr

/-- Embeds `SysfsPoller._compute_metrics` (src/agent/sysfs_poller.py lines 183-239).
`poll_interval` is `self.poll_interval` (seconds), `idle_threshold` is
`self.idle_threshold`, `speed_mbps` is the value `self._read_speed(ifname)`
returns, `counter` is `self._idle_counters.get(ifname, 0)` before the call and
the second component of the result is its value after the call, and
`current_state` is `self._current_states.get(ifname, UNKNOWN)`.
`ACTIVE_THRESHOLD_BYTES` is the class constant 0. -/
def compute_metrics (poll_interval : ℚ) (idle_threshold : Nat) (speed_mbps : Nat)
    (ifname : String) (counter : Nat) (current_state : TrafficState)
    (prev curr : InterfaceStats) : TrafficMetrics × Nat :=
  let time_delta0 : ℚ := curr.timestamp - prev.timestamp
  let time_delta : ℚ := if time_delta0 ≤ 0 then poll_interval else time_delta0
  let rx_bytes_delta : ℤ := (curr.rx_bytes : ℤ) - (prev.rx_bytes : ℤ)
  let tx_bytes_delta : ℤ := (curr.tx_bytes : ℤ) - (prev.tx_bytes : ℤ)
  let rx_packets_delta : ℤ := (curr.rx_packets : ℤ) - (prev.rx_packets : ℤ)
  let tx_packets_delta : ℤ := (curr.tx_packets : ℤ) - (prev.tx_packets : ℤ)
  let rx_bps : ℚ := (rx_bytes_delta : ℚ) / time_delta
  let tx_bps : ℚ := (tx_bytes_delta : ℚ) / time_delta
  let rx_pps : ℚ := (rx_packets_delta : ℚ) / time_delta
  let tx_pps : ℚ := (tx_packets_delta : ℚ) / time_delta
  let utilization : ℚ :=
    if 0 < speed_mbps then
      min (max rx_bps tx_bps / ((speed_mbps : ℚ) * 1000000 / 8)) 1
    else 0
  let has_traffic : Prop := 0 < rx_bytes_delta ∨ 0 < tx_bytes_delta
  if has_traffic then
    ({ interface := ifname, rx_bps := rx_bps, tx_bps := tx_bps,
       rx_pps := rx_pps, tx_pps := tx_pps,
       total_rx_bytes := curr.rx_bytes, total_tx_bytes := curr.tx_bytes,
       state := .ACTIVE, utilization := utilization,
       timestamp := curr.timestamp }, 0)
  else
    let c := counter + 1
    if idle_threshold ≤ c then
      ({ interface := ifname, rx_bps := rx_bps, tx_bps := tx_bps,
         rx_pps := rx_pps, tx_pps := tx_pps,
         total_rx_bytes := curr.rx_bytes, total_tx_bytes := curr.tx_bytes,
         state := .IDLE, utilization := utilization,
         timestamp := curr.timestamp }, c)
    else
      ({ interface := ifname, rx_bps := rx_bps, tx_bps := tx_bps,
         rx_pps := rx_pps, tx_pps := tx_pps,
         total_rx_bytes := curr.rx_bytes, total_tx_bytes := curr.tx_bytes,
         state := current_state, utilization := utilization,
         timestamp := curr.timestamp }, c)

/-- Byte deltas of one tick as seen by `_compute_metrics` (Python's `-` on
unbounded ints, so the result is a signed integer). -/
def byte_deltas (prev curr : InterfaceStats) : ℤ × ℤ :=
  ((curr.rx_bytes : ℤ) - (prev.rx_bytes : ℤ), (curr.tx_bytes : ℤ) - (prev.tx_bytes : ℤ))

/-- The traffic-state/idle-counter transition performed by one call of
`_compute_metrics`, as a function of the byte deltas alone. -/
def traffic_step (idle_threshold : Nat) (sc : TrafficState × Nat) (d : ℤ × ℤ) :
    TrafficState × Nat :=
  if 0 < d.1 ∨ 0 < d.2 then (.ACTIVE, 0)
  else if idle_threshold ≤ sc.2 + 1 then (.IDLE, sc.2 + 1) else (sc.1, sc.2 + 1)

/-- Embeds `traffic_step` iterated over a list of per-tick deltas. -/
def traffic_run (idle_threshold : Nat) :
    TrafficState × Nat → List (ℤ × ℤ) → TrafficState × Nat
  | sc, [] => sc
  | sc, d :: rest => traffic_run idle_threshold (traffic_step idle_threshold sc d) rest

/-- Embeds `SysfsPoller._poll_once` iterated over successive counter samples of one
interface: each tick feeds the previous and current sample to
`_compute_metrics` and stores the resulting state and idle counter
(src/agent/sysfs_poller.py lines 241-270). -/
def poll_run (poll_interval : ℚ) (idle_threshold : Nat) (speed_mbps : Nat)
    (ifname : String) :
    TrafficState × Nat → InterfaceStats → List InterfaceStats → TrafficState × Nat
  | sc, _, [] => sc
  | sc, prev, curr :: rest =>
      let r := compute_metrics poll_interval idle_threshold speed_mbps ifname
        sc.2 sc.1 prev curr
      poll_run poll_interval idle_threshold speed_mbps ifname (r.1.state, r.2) curr rest

/-- The list of per-tick byte deltas of a sample chain. -/
def chain_deltas : InterfaceStats → List InterfaceStats → List (ℤ × ℤ)
  | _, [] => []
  | prev, curr :: rest => byte_deltas prev curr :: chain_deltas curr rest

/-- Counters never decrease along the sample chain (no wraparound). -/
def chain_mono : InterfaceStats → List InterfaceStats → Bool
  | _, [] => true
  | prev, curr :: rest =>
      (decide (prev.rx_bytes ≤ curr.rx_bytes) && decide (prev.tx_bytes ≤ curr.tx_bytes))
        && chain_mono curr rest

/-- Number of trailing ticks whose deltas show no traffic. -/
def trailing_quiet : List (ℤ × ℤ) → Nat
  | [] => 0
  | d :: rest =>
      if trailing_quiet rest = rest.length ∧ ¬(0 < d.1 ∨ 0 < d.2) then
        rest.length + 1
      else trailing_quiet rest

theorem compute_metrics_step (pi : ℚ) (N sp : Nat) (ifname : String)
    (c : Nat) (st : TrafficState) (prev curr : InterfaceStats) :
    ((compute_metrics pi N sp ifname c st prev curr).1.state,
      (compute_metrics pi N sp ifname c st prev curr).2) =
    traffic_step N (st, c) (byte_deltas prev curr) := by
  by_cases h : prev.rx_bytes < curr.rx_bytes ∨ prev.tx_bytes < curr.tx_bytes
  · simp [compute_metrics, traffic_step, byte_deltas, h]
  · by_cases h2 : N ≤ c + 1
    · simp [compute_metrics, traffic_step, byte_deltas, h, h2]
    · simp [compute_metrics, traffic_step, byte_deltas, h, h2]

theorem poll_run_eq_traffic_run (pi : ℚ) (N sp : Nat) (ifname : String)
    (samples : List InterfaceStats) :
    ∀ (prev : InterfaceStats) (sc : TrafficState × Nat),
    poll_run pi N sp ifname sc prev samples =
      traffic_run N sc (chain_deltas prev samples) := by
  induction samples with
  | nil => intro prev sc; rfl
  | cons curr rest ih =>
      intro prev sc
      have hb := compute_metrics_step pi N sp ifname sc.2 sc.1 prev curr
      simp only [poll_run, chain_deltas, traffic_run]
      rw [← ih curr]
      rw [hb]

theorem trailing_quiet_le_length (ds : List (ℤ × ℤ)) :
    trailing_quiet ds ≤ ds.length := by
  induction ds with
  | nil => simp [trailing_quiet]
  | cons d rest ih =>
      rw [trailing_quiet]
      split
      · simp
      · exact ih.trans (by simp)

theorem traffic_step_counter (N : Nat) (sc : TrafficState × Nat) (d : ℤ × ℤ) :
    (traffic_step N sc d).2 = if 0 < d.1 ∨ 0 < d.2 then 0 else sc.2 + 1 := by
  by_cases hd : 0 < d.1 ∨ 0 < d.2
  · simp [traffic_step, hd]
  · by_cases hN : N ≤ sc.2 + 1 <;> simp [traffic_step, hd, hN]

theorem traffic_run_counter (N : Nat) (ds : List (ℤ × ℤ)) :
    ∀ sc : TrafficState × Nat,
    (traffic_run N sc ds).2 =
      if trailing_quiet ds = ds.length then sc.2 + ds.length else trailing_quiet ds := by
  induction ds with
  | nil => intro sc; simp [traffic_run, trailing_quiet]
  | cons d rest ih =>
      intro sc
      have hle := trailing_quiet_le_length rest
      rw [traffic_run, ih, traffic_step_counter]
      simp only [trailing_quiet, List.length_cons]
      split_ifs <;> omega

theorem traffic_run_idle (N : Nat) (ds : List (ℤ × ℤ)) :
    ∀ sc : TrafficState × Nat, (sc.1 = .IDLE → N ≤ sc.2) →
    (traffic_run N sc ds).1 = .IDLE → N ≤ (traffic_run N sc ds).2 := by
  induction ds with
  | nil => intro sc h hidle; exact h hidle
  | cons d rest ih =>
      intro sc h hidle
      rw [traffic_run] at hidle ⊢
      refine ih (traffic_step N sc d) ?_ hidle
      intro hstep
      by_cases hd : 0 < d.1 ∨ 0 < d.2
      · rw [traffic_step, if_pos hd] at hstep
        exact absurd hstep (by decide)
      · by_cases hN : N ≤ sc.2 + 1
        · rw [traffic_step, if_neg hd, if_pos hN]
          exact hN
        · rw [traffic_step, if_neg hd, if_neg hN] at hstep ⊢
          exact (h hstep).trans (Nat.le_succ _)

theorem trailing_quiet_spec (ds : List (ℤ × ℤ)) :
    ∀ d ∈ ds.drop (ds.length - trailing_quiet ds), ¬(0 < d.1 ∨ 0 < d.2) := by
  induction ds with
  | nil => intro d hd; simp at hd
  | cons e rest ih =>
      intro d hd
      rw [trailing_quiet] at hd
      by_cases h1 : trailing_quiet rest = rest.length ∧ ¬(0 < e.1 ∨ 0 < e.2)
      · rw [if_pos h1] at hd
        simp only [List.length_cons, Nat.sub_self, List.drop_zero] at hd
        rcases List.mem_cons.mp hd with hd | hd
        · exact hd ▸ h1.2
        · exact ih d (by rw [h1.1, Nat.sub_self, List.drop_zero]; exact hd)
      · rw [if_neg h1] at hd
        have hle := trailing_quiet_le_length rest
        rw [show (e :: rest).length - trailing_quiet rest
            = (rest.length - trailing_quiet rest) + 1 by simp; omega] at hd
        rw [List.drop_succ_cons] at hd
        exact ih d hd

theorem mem_drop_of_le {α : Type} {l : List α} {m n : Nat} (h : n ≤ m) {a : α}
    (ha : a ∈ l.drop m) : a ∈ l.drop n := by
  have heq : l.drop m = (l.drop n).drop (m - n) := by
    rw [List.drop_drop]
    congr 1
    omega
  rw [heq] at ha
  exact List.mem_of_mem_drop ha

theorem chain_deltas_length (samples : List InterfaceStats) :
    ∀ s0, (chain_deltas s0 samples).length = samples.length := by
  induction samples with
  | nil => intro s0; rfl
  | cons c rest ih => intro s0; simp [chain_deltas, ih]

theorem chain_deltas_nonneg (samples : List InterfaceStats) :
    ∀ s0, chain_mono s0 samples = true →
    ∀ d ∈ chain_deltas s0 samples, 0 ≤ d.1 ∧ 0 ≤ d.2 := by
  induction samples with
  | nil => intro s0 _ d hd; simp [chain_deltas] at hd
  | cons c rest ih =>
      intro s0 hmono d hd
      rw [chain_mono, Bool.and_eq_true, Bool.and_eq_true] at hmono
      obtain ⟨⟨hrx, htx⟩, hrest⟩ := hmono
      rcases List.mem_cons.mp hd with hd | hd
      · subst hd
        constructor
        · simp [byte_deltas]
          exact_mod_cast of_decide_eq_true hrx
        · simp [byte_deltas]
          exact_mod_cast of_decide_eq_true htx
      · exact ih c hrest d hd

/-- C4: with `idle_threshold_samples = N`, starting from traffic state ACTIVE
with a freshly reset idle counter, the sampler computes IDLE only after at
least `N` consecutive zero-delta samples, and any sample with a positive rx
or tx byte delta resets the zero-sample counter to 0 and computes ACTIVE. -/
theorem idle_hysteresis (poll_interval : ℚ) (speed_mbps : Nat) (ifname : String)
    (N : Nat) (s0 : InterfaceStats) (samples : List InterfaceStats)
    (hmono : chain_mono s0 samples = true) :
    ((poll_run poll_interval N speed_mbps ifname (.ACTIVE, 0) s0 samples).1 = .IDLE →
      N ≤ samples.length ∧
      ((chain_deltas s0 samples).drop (samples.length - N)).all
        (fun d => decide (d = ((0 : ℤ), (0 : ℤ)))) = true) ∧
    (∀ (st : TrafficState) (c : Nat) (prev curr : InterfaceStats),
      prev.rx_bytes < curr.rx_bytes ∨ prev.tx_bytes < curr.tx_bytes →
      (compute_metrics poll_interval N speed_mbps ifname c st prev curr).1.state
          = .ACTIVE ∧
      (compute_metrics poll_interval N speed_mbps ifname c st prev curr).2 = 0) := by
  constructor
  · intro hidle
    rw [poll_run_eq_traffic_run] at hidle
    set ds := chain_deltas s0 samples with hds
    have hlen : ds.length = samples.length := chain_deltas_length samples s0
    have hcnt := traffic_run_counter N ds (.ACTIVE, 0)
    have hquiet : N ≤ trailing_quiet ds := by
      have h2 := traffic_run_idle N ds (.ACTIVE, 0) (by intro h; cases h) hidle
      rw [hcnt] at h2
      split at h2
      · omega
      · exact h2
    have hle := trailing_quiet_le_length ds
    refine ⟨by omega, ?_⟩
    rw [List.all_eq_true]
    intro d hd
    rw [decide_eq_true_iff]
    have hmem : d ∈ ds.drop (ds.length - trailing_quiet ds) :=
      mem_drop_of_le (by omega) hd
    have hq := trailing_quiet_spec ds d hmem
    have hnn := chain_deltas_nonneg samples s0 hmono d (List.mem_of_mem_drop hd)
    have h1 : d.1 = 0 := by omega
    have h2 : d.2 = 0 := by omega
    exact Prod.ext h1 h2
  · intro st c prev curr hpos
    have hb := compute_metrics_step poll_interval N speed_mbps ifname c st prev curr
    have hstep : traffic_step N (st, c) (byte_deltas prev curr) = (.ACTIVE, 0) := by
      rw [traffic_step, if_pos]
      simp only [byte_deltas]
      rcases hpos with h | h
      · exact Or.inl (by omega)
      · exact Or.inr (by omega)
    rw [hstep] at hb
    exact ⟨congrArg Prod.fst hb, congrArg Prod.snd hb⟩

/-- Concrete sample chain for the hysteresis witness: three reads of an
interface whose counters never move. -/
def quietStats (t : ℚ) : InterfaceStats :=
  { rx_bytes := 500, tx_bytes := 700, rx_packets := 5, tx_packets := 7,
    rx_errors := 0, tx_errors := 0, rx_dropped := 0, tx_dropped := 0,
    timestamp := t }

/-- Concrete samples with growing counters for the hysteresis witness. -/
def busyStats (rx : Nat) (t : ℚ) : InterfaceStats :=
  { rx_bytes := rx, tx_bytes := 0, rx_packets := 1, tx_packets := 0,
    rx_errors := 0, tx_errors := 0, rx_dropped := 0, tx_dropped := 0,
    timestamp := t }

theorem idle_hysteresis_witness :
    ((2 : Nat) ≤ ([quietStats 1, quietStats 2] : List InterfaceStats).length ∧
      ((chain_deltas (quietStats 0) [quietStats 1, quietStats 2]).drop
        (([quietStats 1, quietStats 2] : List InterfaceStats).length - 2)).all
        (fun d => decide (d = ((0 : ℤ), (0 : ℤ)))) = true) ∧
    ((compute_metrics 1 2 0 "eth0" 1 .IDLE (busyStats 10 0) (busyStats 20 1)).1.state
        = .ACTIVE ∧
      (compute_metrics 1 2 0 "eth0" 1 .IDLE (busyStats 10 0) (busyStats 20 1)).2 = 0) :=
  ⟨(idle_hysteresis 1 0 "eth0" 2 (quietStats 0) [quietStats 1, quietStats 2]
      (by decide)).1 (by decide),
    (idle_hysteresis 1 0 "eth0" 2 (quietStats 0) [quietStats 1, quietStats 2]
      (by decide)).2 .IDLE 1 (busyStats 10 0) (busyStats 20 1) (Or.inl (by decide))⟩

theorem compute_metrics_rates (pi : ℚ) (N sp : Nat) (ifname : String)
    (c : Nat) (st : TrafficState) (prev curr : InterfaceStats) :
    (compute_metrics pi N sp ifname c st prev curr).1.rx_bps =
      ((curr.rx_bytes : ℤ) - (prev.rx_bytes : ℤ) : ℚ) /
        (if curr.timestamp - prev.timestamp ≤ 0 then pi
          else curr.timestamp - prev.timestamp) ∧
    (compute_metrics pi N sp ifname c st prev curr).1.tx_bps =
      ((curr.tx_bytes : ℤ) - (prev.tx_bytes : ℤ) : ℚ) /
        (if curr.timestamp - prev.timestamp ≤ 0 then pi
          else curr.timestamp - prev.timestamp) ∧
    (compute_metrics pi N sp ifname c st prev curr).1.rx_pps =
      ((curr.rx_packets : ℤ) - (prev.rx_packets : ℤ) : ℚ) /
        (if curr.timestamp - prev.timestamp ≤ 0 then pi
          else curr.timestamp - prev.timestamp) ∧
    (compute_metrics pi N sp ifname c st prev curr).1.tx_pps =
      ((curr.tx_packets : ℤ) - (prev.tx_packets : ℤ) : ℚ) /
        (if curr.timestamp - prev.timestamp ≤ 0 then pi
          else curr.timestamp - prev.timestamp) := by
  by_cases h : prev.rx_bytes < curr.rx_bytes ∨ prev.tx_bytes < curr.tx_bytes
  · refine ⟨?_, ?_, ?_, ?_⟩ <;> simp [compute_metrics, h]
  · by_cases h2 : N ≤ c + 1 <;> refine ⟨?_, ?_, ?_, ?_⟩ <;>
      simp [compute_metrics, h, h2]

/-- C5 (amended): on counter wraparound (current counter smaller than the
previous one) `_compute_metrics` computes a strictly negative rate for the
wrapped counter, not a zero rate: the delta is Python integer subtraction
with no wraparound special case. -/
theorem wraparound_negative_rates (pi : ℚ) (N sp : Nat) (ifname : String)
    (c : Nat) (st : TrafficState) (prev curr : InterfaceStats)
    (hpi : 0 < pi) :
    (curr.rx_bytes < prev.rx_bytes →
      (compute_metrics pi N sp ifname c st prev curr).1.rx_bps < 0) ∧
    (curr.tx_bytes < prev.tx_bytes →
      (compute_metrics pi N sp ifname c st prev curr).1.tx_bps < 0) ∧
    (curr.rx_packets < prev.rx_packets →
      (compute_metrics pi N sp ifname c st prev curr).1.rx_pps < 0) ∧
    (curr.tx_packets < prev.tx_packets →
      (compute_metrics pi N sp ifname c st prev curr).1.tx_pps < 0) := by
  obtain ⟨h1, h2, h3, h4⟩ := compute_metrics_rates pi N sp ifname c st prev curr
  have htd : 0 < (if curr.timestamp - prev.timestamp ≤ 0 then pi
      else curr.timestamp - prev.timestamp) := by
    split_ifs with h
    · exact hpi
    · linarith [not_le.mp h]
  refine ⟨fun h => ?_, fun h => ?_, fun h => ?_, fun h => ?_⟩
  · rw [h1]
    refine div_neg_of_neg_of_pos ?_ htd
    have : (curr.rx_bytes : ℤ) - (prev.rx_bytes : ℤ) < 0 := by omega
    exact_mod_cast this
  · rw [h2]
    refine div_neg_of_neg_of_pos ?_ htd
    have : (curr.tx_bytes : ℤ) - (prev.tx_bytes : ℤ) < 0 := by omega
    exact_mod_cast this
  · rw [h3]
    refine div_neg_of_neg_of_pos ?_ htd
    have : (curr.rx_packets : ℤ) - (prev.rx_packets : ℤ) < 0 := by omega
    exact_mod_cast this
  · rw [h4]
    refine div_neg_of_neg_of_pos ?_ htd
    have : (curr.tx_packets : ℤ) - (prev.tx_packets : ℤ) < 0 := by omega
    exact_mod_cast this

/-- Stat sample before a 64-bit counter wraparound. -/
def wrapPrev : InterfaceStats :=
  { rx_bytes := 100, tx_bytes := 100, rx_packets := 100, tx_packets := 100,
    rx_errors := 0, tx_errors := 0, rx_dropped := 0, tx_dropped := 0,
    timestamp := 0 }

/-- Stat sample after the counters wrapped back below the previous read. -/
def wrapCurr : InterfaceStats :=
  { rx_bytes := 0, tx_bytes := 0, rx_packets := 0, tx_packets := 0,
    rx_errors := 0, tx_errors := 0, rx_dropped := 0, tx_dropped := 0,
    timestamp := 1 }

/-- C5 counterexample: a wrapped rx counter yields the rate −100 B/s for the
tick, not the zero rate the claim states. -/
theorem wraparound_rates_counterexample :
    wrapCurr.rx_bytes < wrapPrev.rx_bytes ∧
    (compute_metrics 1 5 0 "eth0" 0 .ACTIVE wrapPrev wrapCurr).1.rx_bps = -100 ∧
    (compute_metrics 1 5 0 "eth0" 0 .ACTIVE wrapPrev wrapCurr).1.rx_bps ≠ 0 := by
  have h := (compute_metrics_rates 1 5 0 "eth0" 0 .ACTIVE wrapPrev wrapCurr).1
  simp only [wrapPrev, wrapCurr] at h
  norm_num at h
  exact ⟨by decide, by simp only [wrapPrev, wrapCurr]; rw [h],
    by simp only [wrapPrev, wrapCurr]; rw [h]; norm_num⟩

theorem wraparound_negative_rates_witness :
    (compute_metrics 1 5 0 "eth0" 0 .ACTIVE wrapPrev wrapCurr).1.rx_bps < 0 :=
  (wraparound_negative_rates 1 5 0 "eth0" 0 .ACTIVE wrapPrev wrapCurr
    (by norm_num)).1 (by decide)

/-! ## Interface fusion (`src/agent/interface_manager.py`) -/

/-- Embeds `interface_manager.LinkState`: the fused per-interface state. -/
inductive FusedLinkState
  | UP_ACTIVE
  | UP_IDLE
  | DOWN
  | UNKNOWN
deriving DecidableEq, Repr

/-- Embeds `InterfaceManager._compute_link_state` (src/agent/interface_manager.py
lines 208-218). -/
def compute_link_state (operstate : String) (traffic_state : TrafficState) :
    FusedLinkState :=
  if operstate ≠ "up" then .DOWN
  else if traffic_state = .ACTIVE then .UP_ACTIVE
  else if traffic_state = .IDLE then .UP_IDLE
  else .UP_IDLE

/-- C3: the fused state is a pure function of the latest operstate and latest
traffic state: DOWN whenever operstate is not the string `up` regardless of
the traffic state, UP_ACTIVE when operstate is `up` and traffic is ACTIVE, and
UP_IDLE when operstate is `up` and traffic is IDLE or UNKNOWN. -/
theorem compute_link_state_fusion (operstate : String) (t : TrafficState) :
    (operstate ≠ "up" → compute_link_state operstate t = .DOWN) ∧
    (operstate = "up" → t = .ACTIVE → compute_link_state operstate t = .UP_ACTIVE) ∧
    (operstate = "up" → (t = .IDLE ∨ t = .UNKNOWN) →
      compute_link_state operstate t = .UP_IDLE) := by
  refine ⟨fun h => by simp [compute_link_state, h], fun h ht => ?_, fun h ht => ?_⟩
  · subst h; subst ht; decide
  · subst h; rcases ht with ht | ht <;> subst ht <;> decide

theorem compute_link_state_fusion_witness :
    compute_link_state "down" .ACTIVE = .DOWN ∧
    compute_link_state "up" .ACTIVE = .UP_ACTIVE ∧
    compute_link_state "up" .UNKNOWN = .UP_IDLE :=
  ⟨(compute_link_state_fusion "down" .ACTIVE).1 (by decide),
    (compute_link_state_fusion "up" .ACTIVE).2.1 rfl rfl,
    (compute_link_state_fusion "up" .UNKNOWN).2.2 rfl (Or.inr rfl)⟩

/-! ## Flow observer (`src/agent/hubble_monitor.py`) -/

/-- Embeds `hubble_monitor.FlowVerdict`. -/
inductive FlowVerdict
  | FORWARDED
  | DROPPED
  | ERROR
  | AUDIT
  | REDIRECTED
  | TRACED
  | TRANSLATED
  | UNKNOWN
deriving DecidableEq, Repr

/-- Embeds `hubble_monitor.TrafficDirection`. -/
inductive TrafficDirection
  | INGRESS
  | EGRESS
  | UNKNOWN
deriving DecidableEq, Repr

/-- Embeds `hubble_monitor.LinkState`: link state derived from flow analysis. -/
inductive FlowLinkState
  | ACTIVE
  | IDLE
  | DOWN
  | UNKNOWN
deriving DecidableEq, Repr

/-- Embeds `hubble_monitor.Endpoint` (`nspace` embeds the Python attribute
`namespace`, which is a Lean keyword). -/
structure Endpoint where
  nspace : String
  pod_name : String
  labels : List (String × String)
  identity : Int
  ip : String
deriving DecidableEq, Repr

/-- Embeds `Endpoint.id`: `namespace/pod` when both set, else the ip when nonempty,
else `identity:<n>` (Python truthiness of strings is nonemptiness). -/
def Endpoint.eid (e : Endpoint) : String :=
  if e.nspace ≠ "" ∧ e.pod_name ≠ "" then e.nspace ++ "/" ++ e.pod_name
  else if e.ip ≠ "" then e.ip
  else "identity:" ++ toString e.identity

/-- Embeds `hubble_monitor.FlowEvent` (times as abstract ticks). -/
structure FlowEvent where
  source : Endpoint
  destination : Endpoint
  verdict : FlowVerdict
  direction : TrafficDirection
  l4_protocol : String
  source_port : Nat
  destination_port : Nat
  bytes : Nat
  timestamp : Nat
  drop_reason : String
  is_reply : Bool
deriving DecidableEq, Repr

/-- Embeds `FlowEvent.flow_key`. -/
def FlowEvent.flow_key (f : FlowEvent) : String :=
  f.source.eid ++ "->" ++ f.destination.eid

/-- Embeds `hubble_monitor.LinkStateChange`. -/
structure LinkStateChange where
  flow_key : String
  source : Endpoint
  destination : Endpoint
  old_state : FlowLinkState
  new_state : FlowLinkState
  timestamp : Nat
deriving DecidableEq, Repr

/-- The flow-tracking fields of `HubbleMonitor`: `_flow_last_seen`,
`_flow_states` and `_flow_endpoints`. -/
structure HubbleState where
  flow_last_seen : List (String × Nat)
  flow_states : List (String × FlowLinkState)
  flow_endpoints : List (String × (Endpoint × Endpoint))
deriving Repr

/-- Embeds `HubbleMonitor._update_flow_state` (src/agent/hubble_monitor.py lines
268-297), with the wall-clock read `datetime.now()` passed in as `now`. -/
def update_flow_state (st : HubbleState) (flow : FlowEvent) (now : Nat) :
    HubbleState × Option LinkStateChange :=
  let key := flow.flow_key
  let st1 : HubbleState :=
    { st with
      flow_endpoints := dinsert st.flow_endpoints key (flow.source, flow.destination),
      flow_last_seen := dinsert st.flow_last_seen key now }
  let old_state := (dlookup st.flow_states key).getD .UNKNOWN
  let new_state : FlowLinkState :=
    if flow.verdict = .DROPPED then .DOWN
    else if flow.verdict = .FORWARDED then .ACTIVE
    else old_state
  if old_state ≠ new_state then
    ({ st1 with flow_states := dinsert st1.flow_states key new_state },
      some { flow_key := key, source := flow.source, destination := flow.destination,
             old_state := old_state, new_state := new_state, timestamp := now })
  else (st1, none)

/-- C2 (amended): processing a DROPPED flow record leaves the flow in state
DOWN and advances its `last_seen` time to `now` — `_update_flow_state`
refreshes `_flow_last_seen` unconditionally for every record, DROPPED
included. -/
theorem dropped_sets_down_and_updates_last_seen (st : HubbleState)
    (flow : FlowEvent) (now : Nat) (h : flow.verdict = .DROPPED) :
    dlookup (update_flow_state st flow now).1.flow_states flow.flow_key
        = some .DOWN ∧
    dlookup (update_flow_state st flow now).1.flow_last_seen flow.flow_key
        = some now := by
  simp only [update_flow_state, h, eq_self_iff_true, if_true]
  split_ifs with hcond
  · exact ⟨dlookup_dinsert_self _ _ _, dlookup_dinsert_self _ _ _⟩
  · push_neg at hcond
    refine ⟨?_, dlookup_dinsert_self _ _ _⟩
    rcases hh : dlookup st.flow_states flow.flow_key with _ | v
    · rw [hh] at hcond
      simp at hcond
    · rw [hh] at hcond
      simp at hcond
      rw [hcond]

/-- Source endpoint for the C2 concrete run. -/
def epA : Endpoint :=
  { nspace := "ns", pod_name := "a", labels := [], identity := 1, ip := "10.0.0.1" }

/-- Destination endpoint for the C2 concrete run. -/
def epB : Endpoint :=
  { nspace := "ns", pod_name := "b", labels := [], identity := 2, ip := "10.0.0.2" }

/-- A DROPPED flow record between `epA` and `epB`. -/
def droppedFlow : FlowEvent :=
  { source := epA, destination := epB, verdict := .DROPPED,
    direction := .INGRESS, l4_protocol := "TCP", source_port := 80,
    destination_port := 8080, bytes := 0, timestamp := 5,
    drop_reason := "POLICY_DENIED", is_reply := false }

/-- Tracking state in which `epA → epB` is an ACTIVE flow last seen at 0. -/
def trackA : HubbleState :=
  { flow_last_seen := [("ns/a->ns/b", 0)],
    flow_states := [("ns/a->ns/b", .ACTIVE)],
    flow_endpoints := [("ns/a->ns/b", (epA, epB))] }

/-- C2 counterexample: for the tracked flow `ns/a->ns/b`, processing a DROPPED
record at time 5 moves `last_seen` from 0 to 5 — it is not left unchanged as
the claim states. -/
theorem dropped_last_seen_counterexample :
    droppedFlow.verdict = .DROPPED ∧
    dlookup trackA.flow_last_seen droppedFlow.flow_key = some 0 ∧
    dlookup (update_flow_state trackA droppedFlow 5).1.flow_last_seen
        droppedFlow.flow_key = some 5 := by
  refine ⟨rfl, by decide, by decide⟩

theorem dropped_sets_down_witness :
    dlookup (update_flow_state trackA droppedFlow 5).1.flow_states
        droppedFlow.flow_key = some .DOWN ∧
    dlookup (update_flow_state trackA droppedFlow 5).1.flow_last_seen
        droppedFlow.flow_key = some 5 :=
  dropped_sets_down_and_updates_last_seen trackA droppedFlow 5 rfl

/-! ## Event bus (`src/api/services/event_bus.py`) -/

/-- Embeds `event_bus.Event` (payload dict embedded as key-value pairs, times as
ticks). -/
structure Event where
  type : String
  data : List (String × String)
  timestamp : Nat
  source : String
deriving DecidableEq, Repr

/-- Embeds `event_bus.Subscriber`: `event_types` is `none` for "receive all",
`queue` holds the `asyncio.Queue` contents front-first, `maxsize` its bound
(0 means unbounded, the `asyncio.Queue` convention), `active` is `_active`. -/
structure Subscriber where
  event_types : Option (List String)
  queue : List Event
  maxsize : Nat
  active : Bool
  created_at : Nat
deriving DecidableEq, Repr

/-- Embeds `Subscriber.__init__` (src/api/services/event_bus.py lines 41-51): the
queue is created as `asyncio.Queue()`, whose default `maxsize` is 0, i.e.
unbounded. -/
def Subscriber.init (event_types : Option (List String)) (now : Nat) : Subscriber :=
  { event_types := event_types, queue := [], maxsize := 0, active := true,
    created_at := now }

/-- Embeds `Subscriber.should_receive`. -/
def Subscriber.should_receive (s : Subscriber) (event_type : String) : Bool :=
  match s.event_types with
  | none => true
  | some types => types.contains event_type

/-- Embeds `asyncio.Queue.put_nowait` on the subscriber queue: raises `QueueFull`
(here: leaves the queue unchanged, since `publish` catches the exception and
drops the event) iff `0 < maxsize ≤ qsize`. -/
def Subscriber.put_nowait (s : Subscriber) (e : Event) : Subscriber :=
  if 0 < s.maxsize ∧ s.maxsize ≤ s.queue.length then s
  else { s with queue := s.queue ++ [e] }

/-- Embeds `Subscriber.get_event` (lines 59-66): `None` immediately when the
subscriber is closed; otherwise the front of the queue, or `None` on timeout
when the queue is empty. -/
def Subscriber.get_event (s : Subscriber) : Option Event × Subscriber :=
  if s.active = false then (none, s)
  else
    match s.queue with
    | [] => (none, s)
    | e :: rest => (some e, { s with queue := rest })

/-- Embeds `Subscriber.close` (lines 68-70). -/
def Subscriber.close (s : Subscriber) : Subscriber := { s with active := false }

/-- Embeds `event_bus.EventBus` state. -/
structure EventBus where
  subscribers : List Subscriber
  history : List Event
  history_size : Nat
  event_count : Nat
deriving DecidableEq, Repr

/-- Embeds `EventBus.publish` (src/api/services/event_bus.py lines 127-169):
appends to the history ring (a `deque` with `maxlen = history_size`),
skips and discards inactive subscribers, and enqueues to each matching
active subscriber with `put_nowait`, dropping the event for a subscriber
whose queue is full. -/
def EventBus.publish (bus : EventBus) (event_type : String)
    (data : List (String × String)) (source : String) (now : Nat) : EventBus :=
  let event : Event :=
    { type := event_type, data := data, timestamp := now, source := source }
  let h := bus.history ++ [event]
  let history :=
    if bus.history_size < h.length then h.drop (h.length - bus.history_size) else h
  { bus with
    history := history,
    event_count := bus.event_count + 1,
    subscribers :=
      (bus.subscribers.filter (fun s => s.active)).map
        (fun s => if s.should_receive event_type then s.put_nowait event else s) }

theorem put_nowait_active (u : Subscriber) (e : Event) :
    (u.put_nowait e).active = u.active := by
  rw [Subscriber.put_nowait]
  split <;> rfl

/-- C10: a closed subscriber's `get_event` returns `None` whatever is queued;
a publish drops every inactive subscriber from the subscriber set, and every
subscriber surviving a publish stems from an active pre-publish subscriber,
so a closed subscriber is never enqueued to again. -/
theorem closed_subscriber_receives_nothing (s : Subscriber) (bus : EventBus)
    (event_type : String) (data : List (String × String)) (source : String)
    (now : Nat) :
    Subscriber.get_event (Subscriber.close s) = (none, Subscriber.close s) ∧
    (s.active = false →
      s ∉ (bus.publish event_type data source now).subscribers) ∧
    (∀ t ∈ (bus.publish event_type data source now).subscribers,
      ∃ u ∈ bus.subscribers, u.active = true ∧
        (t = u ∨ t = u.put_nowait
          { type := event_type, data := data, timestamp := now, source := source })) := by
  refine ⟨by simp [Subscriber.get_event, Subscriber.close], ?_, ?_⟩
  · intro hs hmem
    simp only [EventBus.publish, List.mem_map, List.mem_filter] at hmem
    obtain ⟨u, ⟨hu, hua⟩, hfu⟩ := hmem
    have hsa : s.active = true := by
      rw [← hfu]
      split
      · rw [put_nowait_active]; exact hua
      · exact hua
    rw [hs] at hsa
    cases hsa
  · intro t hmem
    simp only [EventBus.publish, List.mem_map, List.mem_filter] at hmem
    obtain ⟨u, ⟨hu, hua⟩, hfu⟩ := hmem
    refine ⟨u, hu, hua, ?_⟩
    rw [← hfu]
    split
    · exact Or.inr rfl
    · exact Or.inl rfl

/-- A closed subscriber that still has an event queued. -/
def subClosed : Subscriber :=
  { event_types := none,
    queue := [{ type := "link_added", data := [], timestamp := 0, source := "api" }],
    maxsize := 0, active := false, created_at := 0 }

/-- A bus whose only subscriber is the closed one. -/
def busClosed : EventBus :=
  { subscribers := [subClosed], history := [], history_size := 100,
    event_count := 0 }

theorem closed_subscriber_receives_nothing_witness :
    subClosed.active = false ∧
    Subscriber.get_event (Subscriber.close subClosed)
      = (none, Subscriber.close subClosed) ∧
    subClosed ∉ (busClosed.publish "link_state_change" [] "agent" 1).subscribers :=
  ⟨by decide,
    (closed_subscriber_receives_nothing subClosed busClosed
      "link_state_change" [] "agent" 1).1,
    (closed_subscriber_receives_nothing subClosed busClosed
      "link_state_change" [] "agent" 1).2.1 (by decide)⟩

/-- A fresh subscribe-to-everything subscriber that never consumes. -/
def freshSub : Subscriber := Subscriber.init none 0

/-- A bus whose single subscriber is `freshSub`. -/
def busSingle : EventBus :=
  { subscribers := [freshSub], history := [], history_size := 100,
    event_count := 0 }

/-- Embeds `n` successive publishes on `busSingle` with nobody consuming. -/
def publishN : Nat → EventBus
  | 0 => busSingle
  | n + 1 => (publishN n).publish "link_state_change" [] "agent" n

/-- The event the `n`-th publish of `publishN` constructs. -/
def evN (n : Nat) : Event :=
  { type := "link_state_change", data := [], timestamp := n, source := "agent" }

theorem publishN_shape (n : Nat) :
    ∃ q : List Event, q.length = n ∧ (publishN n).subscribers =
      [{ event_types := none, queue := q, maxsize := 0, active := true,
         created_at := 0 }] := by
  induction n with
  | zero => exact ⟨[], rfl, rfl⟩
  | succ n ih =>
      obtain ⟨q, hlen, hsub⟩ := ih
      refine ⟨q ++ [evN n], by simp [hlen], ?_⟩
      show (EventBus.publish (publishN n) "link_state_change" [] "agent" n).subscribers = _
      simp [EventBus.publish, hsub, Subscriber.should_receive, Subscriber.put_nowait, evN]

/-- C6 (code evaluated at the failing input): the subscriber queue created by
`Subscriber.__init__` is `asyncio.Queue()` with `maxsize = 0`, i.e. unbounded:
with one never-consuming subscriber, `n` publishes leave a queue of length
`n` for every `n`, so no bound exists and no event is ever dropped —
contradicting the claim that every subscriber queue is bounded. -/
theorem subscriber_queue_unbounded :
    (Subscriber.init none 0).maxsize = 0 ∧
    (∀ n, (publishN n).subscribers.map (fun s => s.queue.length) = [n]) ∧
    ¬ ∃ B : Nat, ∀ n, ∀ s ∈ (publishN n).subscribers, s.queue.length ≤ B := by
  refine ⟨rfl, ?_, ?_⟩
  · intro n
    obtain ⟨q, hlen, hsub⟩ := publishN_shape n
    rw [hsub]
    simp [hlen]
  · rintro ⟨B, hB⟩
    obtain ⟨q, hlen, hsub⟩ := publishN_shape (B + 1)
    have hq := hB (B + 1) _ (by rw [hsub]; exact List.mem_singleton_self _)
    simp only at hq
    omega

theorem subscriber_queue_unbounded_witness :
    (publishN 3).subscribers.map (fun s => s.queue.length) = [3] :=
  subscriber_queue_unbounded.2.1 3

/-! ## Topology / link-state store (`src/api/models/schemas.py`,
`src/api/services/link_state_service.py`) -/

/-- Embeds `schemas.LinkState`. -/
inductive LinkState
  | ACTIVE
  | IDLE
  | DOWN
  | UNKNOWN
deriving DecidableEq, Repr

/-- Embeds `schemas.NodeStatus`. -/
inductive NodeStatus
  | UP
  | DOWN
  | DEGRADED
  | UNKNOWN
deriving DecidableEq, Repr

/-- Embeds `schemas.LinkMetrics` (floats as rationals, optional floats as
`Option ℚ`). -/
structure LinkMetrics where
  rx_bps : ℚ
  tx_bps : ℚ
  rx_pps : ℚ
  tx_pps : ℚ
  rx_bytes_total : Nat
  tx_bytes_total : Nat
  utilization : ℚ
  latency_ms : Option ℚ
  packet_loss : Option ℚ
deriving DecidableEq, Repr

/-- The pydantic defaults of `LinkMetrics`. -/
def LinkMetrics.zero : LinkMetrics :=
  { rx_bps := 0, tx_bps := 0, rx_pps := 0, tx_pps := 0, rx_bytes_total := 0,
    tx_bytes_total := 0, utilization := 0, latency_ms := none,
    packet_loss := none }

/-- Embeds `schemas.Node` (metadata bag as key-value pairs). -/
structure Node where
  id : String
  lab : String
  label : String
  type : String
  status : NodeStatus
  ip_address : Option String
  platform : Option String
  metadata : List (String × String)
deriving DecidableEq, Repr

/-- Embeds `schemas.Link`. -/
structure Link where
  id : String
  lab : String
  source : String
  target : String
  source_interface : String
  target_interface : String
  state : LinkState
  metrics : LinkMetrics
  speed_mbps : Nat
  mtu : Nat
  last_updated : Nat
  metadata : List (String × String)
deriving DecidableEq, Repr

/-- Embeds `schemas.LinkStateEvent`. -/
structure LinkStateEvent where
  link_id : String
  interface : String
  old_state : LinkState
  new_state : LinkState
  timestamp : Nat
  source : String
  metrics : Option LinkMetrics
deriving DecidableEq, Repr

/-- Embeds `schemas.InterfaceEvent`. -/
structure InterfaceEvent where
  interface : String
  ifindex : Nat
  old_state : String
  new_state : String
  operstate : String
  timestamp : Nat
  source : String
deriving DecidableEq, Repr

/-- The state of `LinkStateService`: `_nodes`, `_links` and
`_interface_to_link`. -/
structure LinkStateService where
  nodes : List (String × Node)
  links : List (String × Link)
  interface_to_link : List (String × String)
deriving Repr

/-- Embeds `LinkStateService.__init__`: all three dicts start empty. -/
def LinkStateService.init : LinkStateService :=
  { nodes := [], links := [], interface_to_link := [] }

/-- Embeds `LinkStateService.update_link_state` (src/api/services/link_state_service.py
lines 88-147): unknown link → store unchanged and no event; otherwise state
and `last_updated` are always written and metrics applied when supplied; an
event is returned (and published) only when the state actually changed. -/
def update_link_state (svc : LinkStateService) (link_id : String)
    (new_state : LinkState) (metrics : Option LinkMetrics) (source : String)
    (now : Nat) : LinkStateService × Option LinkStateEvent :=
  match dlookup svc.links link_id with
  | none => (svc, none)
  | some link =>
      let old_state := link.state
      let link1 := { link with state := new_state, last_updated := now }
      let link2 :=
        match metrics with
        | some m => { link1 with metrics := m }
        | none => link1
      let svc1 := { svc with links := dinsert svc.links link_id link2 }
      if old_state ≠ new_state then
        (svc1,
          some { link_id := link_id, interface := link.source_interface,
                 old_state := old_state, new_state := new_state,
                 timestamp := now, source := source,
                 metrics := some link2.metrics })
      else (svc1, none)

/-- Embeds `LinkStateService.get_link_by_interface` (lines 80-86); Python's
`if link_id:` is false for both `None` and the empty string. -/
def get_link_by_interface (svc : LinkStateService) (interface : String) :
    Option Link :=
  match dlookup svc.interface_to_link interface with
  | none => none
  | some link_id => if link_id = "" then none else dlookup svc.links link_id

/-- Python `str.lower()`, mapped over the characters of the string (the
agent-state tokens are ASCII). -/
def str_lower (s : String) : String := ⟨s.data.map Char.toLower⟩

/-- The agent-state translation of `handle_agent_event` (lines 167-176):
the `state_map` dict lookup applied to `event.new_state.lower()`, with
`UNKNOWN` as the `get` default. -/
def state_map (token : String) : LinkState :=
  let l := str_lower token
  if l = "active" then .ACTIVE
  else if l = "idle" then .IDLE
  else if l = "down" then .DOWN
  else if l = "up_active" then .ACTIVE
  else if l = "up_idle" then .IDLE
  else .UNKNOWN

/-- Embeds `LinkStateService.handle_agent_event` (lines 149-182). -/
def handle_agent_event (svc : LinkStateService) (event : InterfaceEvent)
    (now : Nat) : LinkStateService × Option LinkStateEvent :=
  match get_link_by_interface svc event.interface with
  | none => (svc, none)
  | some link =>
      update_link_state svc link.id (state_map event.new_state) none
        event.source now

/-- Store effect of `LinkStateService.add_node` (lines 196-204). -/
def add_node (svc : LinkStateService) (node : Node) : LinkStateService :=
  { svc with nodes := dinsert svc.nodes node.id node }

/-- Store effect of `LinkStateService.add_link` (lines 206-216): the link is
stored and both its interfaces are written to the index, source first. -/
def add_link (svc : LinkStateService) (link : Link) : LinkStateService :=
  { svc with
    links := dinsert svc.links link.id link,
    interface_to_link :=
      dinsert (dinsert svc.interface_to_link link.source_interface link.id)
        link.target_interface link.id }

/-- Store effect of `LinkStateService.remove_node` (lines 218-227). -/
def remove_node (svc : LinkStateService) (node_id : String) : LinkStateService :=
  { svc with nodes := derase svc.nodes node_id }

/-- Store effect of `LinkStateService.remove_link` (lines 229-240): if the
link exists it is popped and both its interface keys are popped from the
index. -/
def remove_link (svc : LinkStateService) (link_id : String) : LinkStateService :=
  match dlookup svc.links link_id with
  | none => svc
  | some link =>
      { svc with
        links := derase svc.links link_id,
        interface_to_link :=
          derase (derase svc.interface_to_link link.source_interface)
            link.target_interface }

/-- Modelled from the spec: `LinkStateService.clear_lab` is invoked by
`LabService.delete_lab` (src/api/services/lab_service.py line 232) and by the
repository's tests, but no implementation of it appears in
src/api/services/link_state_service.py; per the spec it removes all entities
tagged with `lab` and their index entries. -/
def clear_lab (svc : LinkStateService) (lab : String) : LinkStateService :=
  let removed_ids := (svc.links.filter (fun p => p.2.lab == lab)).map (fun p => p.1)
  { nodes := svc.nodes.filter (fun p => !(p.2.lab == lab)),
    links := svc.links.filter (fun p => !(p.2.lab == lab)),
    interface_to_link :=
      svc.interface_to_link.filter (fun p => !(removed_ids.contains p.2)) }

/-- C1: after `clear_lab(L)` the store holds no node and no link tagged `L`,
and no interface→link index entry refers to any of the removed `L`-tagged
links. -/
theorem clear_lab_removes_lab_entities (svc : LinkStateService) (lab : String) :
    (clear_lab svc lab).nodes.all (fun p => !(p.2.lab == lab)) = true ∧
    (clear_lab svc lab).links.all (fun p => !(p.2.lab == lab)) = true ∧
    (clear_lab svc lab).interface_to_link.all
      (fun p => !(((svc.links.filter (fun q => q.2.lab == lab)).map
        (fun q => q.1)).contains p.2)) = true := by
  simp only [clear_lab]
  refine ⟨?_, ?_, ?_⟩ <;>
    (rw [List.all_eq_true]; intro p hp; exact (List.mem_filter.mp hp).2)

/-- C7: when the link's state already equals `s`, `update_link_state` emits
no event while a supplied metrics argument is still applied, and of two
consecutive calls with the same `s` the second never emits, so at most one
event is emitted. -/
theorem update_link_state_unchanged_no_event (svc : LinkStateService)
    (link_id : String) (s : LinkState) (link : Link) (m : LinkMetrics)
    (m1 m2 : Option LinkMetrics) (src src1 src2 : String) (now n1 n2 : Nat)
    (h : dlookup svc.links link_id = some link) :
    (link.state = s →
      (update_link_state svc link_id s (some m) src now).2 = none ∧
      dlookup (update_link_state svc link_id s (some m) src now).1.links link_id
        = some { link with state := s, last_updated := now, metrics := m }) ∧
    (update_link_state (update_link_state svc link_id s m1 src1 n1).1 link_id s
      m2 src2 n2).2 = none := by
  constructor
  · intro hstate
    simp only [update_link_state, h, hstate]
    rw [if_neg (by simp)]
    exact ⟨rfl, dlookup_dinsert_self _ _ _⟩
  · have hstore : ∃ l2 : Link,
        dlookup (update_link_state svc link_id s m1 src1 n1).1.links link_id
          = some l2 ∧ l2.state = s := by
      simp only [update_link_state, h]
      cases m1 with
      | none => split_ifs <;> exact ⟨_, dlookup_dinsert_self _ _ _, rfl⟩
      | some mm => split_ifs <;> exact ⟨_, dlookup_dinsert_self _ _ _, rfl⟩
    obtain ⟨l2, hl2, hl2s⟩ := hstore
    set r := (update_link_state svc link_id s m1 src1 n1).1 with hr
    simp only [update_link_state, hl2, hl2s]
    rw [if_neg (by simp)]

/-- A deployed link used by the store witnesses. -/
def linkW : Link :=
  { id := "dc1/spine1-leaf1", lab := "dc1", source := "dc1/spine1",
    target := "dc1/leaf1", source_interface := "e1-1",
    target_interface := "eth1", state := .ACTIVE, metrics := LinkMetrics.zero,
    speed_mbps := 0, mtu := 1500, last_updated := 0, metadata := [] }

/-- A store holding `linkW` with its two index entries. -/
def svcW : LinkStateService :=
  { nodes := [],
    links := [("dc1/spine1-leaf1", linkW)],
    interface_to_link :=
      [("e1-1", "dc1/spine1-leaf1"), ("eth1", "dc1/spine1-leaf1")] }

/-- Non-zero metrics supplied with the no-op state update. -/
def metricsW : LinkMetrics :=
  { rx_bps := 5, tx_bps := 6, rx_pps := 1, tx_pps := 2, rx_bytes_total := 100,
    tx_bytes_total := 200, utilization := 0, latency_ms := none,
    packet_loss := none }

theorem update_link_state_unchanged_no_event_witness :
    ((update_link_state svcW "dc1/spine1-leaf1" .ACTIVE (some metricsW)
        "agent" 7).2 = none ∧
      dlookup (update_link_state svcW "dc1/spine1-leaf1" .ACTIVE (some metricsW)
        "agent" 7).1.links "dc1/spine1-leaf1"
        = some { linkW with
                 state := .ACTIVE, last_updated := 7,
                 metrics := metricsW }) ∧
    (update_link_state (update_link_state svcW "dc1/spine1-leaf1" .ACTIVE none
      "agent" 1).1 "dc1/spine1-leaf1" .ACTIVE none "agent" 2).2 = none :=
  ⟨(update_link_state_unchanged_no_event svcW "dc1/spine1-leaf1" .ACTIVE linkW
      metricsW none none "agent" "agent" "agent" 7 1 2 rfl).1 rfl,
    (update_link_state_unchanged_no_event svcW "dc1/spine1-leaf1" .ACTIVE linkW
      metricsW none none "agent" "agent" "agent" 7 1 2 rfl).2⟩

/-- C9: `handle_agent_event` translates the agent token case-insensitively
(active/up_active → ACTIVE, idle/up_idle → IDLE, down → DOWN, any other
token → UNKNOWN), and when no link is indexed for the interface it returns
no event and leaves the store unchanged. -/
theorem handle_agent_event_translation (svc : LinkStateService)
    (event : InterfaceEvent) (now : Nat) (token : String) :
    (str_lower token = "active" ∨ str_lower token = "up_active" →
      state_map token = .ACTIVE) ∧
    (str_lower token = "idle" ∨ str_lower token = "up_idle" →
      state_map token = .IDLE) ∧
    (str_lower token = "down" → state_map token = .DOWN) ∧
    (str_lower token ∉ ["active", "idle", "down", "up_active", "up_idle"] →
      state_map token = .UNKNOWN) ∧
    (dlookup svc.interface_to_link event.interface = none →
      handle_agent_event svc event now = (svc, none)) := by
  refine ⟨fun h => ?_, fun h => ?_, fun h => ?_, fun h => ?_, fun h => ?_⟩
  · rcases h with h | h <;> (simp only [state_map]; rw [h]; decide)
  · rcases h with h | h <;> (simp only [state_map]; rw [h]; decide)
  · simp only [state_map]; rw [h]; decide
  · simp only [List.mem_cons, List.not_mem_nil, or_false] at h
    push_neg at h
    obtain ⟨h1, h2, h3, h4, h5⟩ := h
    simp [state_map, h1, h2, h3, h4, h5]
  · simp [handle_agent_event, get_link_by_interface, h]

/-- An agent event for an interface no link is indexed under. -/
def evUnknownIface : InterfaceEvent :=
  { interface := "veth9", ifindex := 4, old_state := "active",
    new_state := "down", operstate := "down", timestamp := 3,
    source := "netlink" }

theorem handle_agent_event_translation_witness :
    state_map "Active" = .ACTIVE ∧
    state_map "UP_IDLE" = .IDLE ∧
    state_map "Down" = .DOWN ∧
    state_map "bogus" = .UNKNOWN ∧
    handle_agent_event LinkStateService.init evUnknownIface 3
      = (LinkStateService.init, none) :=
  ⟨(handle_agent_event_translation LinkStateService.init evUnknownIface 3
      "Active").1 (Or.inl (by decide)),
    (handle_agent_event_translation LinkStateService.init evUnknownIface 3
      "UP_IDLE").2.1 (Or.inr (by decide)),
    (handle_agent_event_translation LinkStateService.init evUnknownIface 3
      "Down").2.2.1 (by decide),
    (handle_agent_event_translation LinkStateService.init evUnknownIface 3
      "bogus").2.2.2.1 (by decide),
    (handle_agent_event_translation LinkStateService.init evUnknownIface 3
      "x").2.2.2.2 rfl⟩

/-! ## Index consistency under add and remove (C8) -/

/-- One mutation of the link store. -/
inductive StoreOp
  | add (link : Link)
  | remove (link_id : String)
deriving DecidableEq, Repr

/-- Apply one store operation. -/
def apply_op (svc : LinkStateService) : StoreOp → LinkStateService
  | .add l => add_link svc l
  | .remove lid => remove_link svc lid

/-- Apply a sequence of store operations in order. -/
def apply_ops (svc : LinkStateService) : List StoreOp → LinkStateService
  | [] => svc
  | op :: rest => apply_ops (apply_op svc op) rest

/-- The link an `add` operation carries. -/
def op_add : StoreOp → Option Link
  | .add l => some l
  | .remove _ => none

/-- The two interface names of a link. -/
def link_ifaces (l : Link) : List String :=
  [l.source_interface, l.target_interface]

/-- The C8 invariant: every stored link has both of its interface names in
the interface→link index, each mapping to that link's id. -/
def index_consistent (svc : LinkStateService) : Prop :=
  ∀ p ∈ svc.links,
    dlookup svc.interface_to_link p.2.source_interface = some p.2.id ∧
    dlookup svc.interface_to_link p.2.target_interface = some p.2.id

theorem add_link_inv (A : List Link)
    (hA : ∀ l1 ∈ A, ∀ l2 ∈ A, l1.id ≠ l2.id →
      ∀ i ∈ link_ifaces l1, i ∉ link_ifaces l2)
    (svc : LinkStateService) (l : Link) (hlA : l ∈ A)
    (h1 : ∀ p ∈ svc.links, p.1 = p.2.id ∧ p.2 ∈ A)
    (h2 : index_consistent svc) :
    (∀ p ∈ (add_link svc l).links, p.1 = p.2.id ∧ p.2 ∈ A) ∧
      index_consistent (add_link svc l) := by
  constructor
  · intro p hp
    simp only [add_link] at hp
    rcases mem_dinsert hp with heq | ⟨hmem, hne⟩
    · subst heq
      exact ⟨rfl, hlA⟩
    · exact h1 p hmem
  · intro p hp
    simp only [add_link] at hp ⊢
    rcases mem_dinsert hp with heq | ⟨hmem, hne⟩
    · subst heq
      constructor
      · by_cases hst : l.source_interface = l.target_interface
        · rw [hst]
          exact dlookup_dinsert_self _ _ _
        · rw [dlookup_dinsert_ne _ _ _ _ hst]
          exact dlookup_dinsert_self _ _ _
      · exact dlookup_dinsert_self _ _ _
    · obtain ⟨hpid, hpA⟩ := h1 p hmem
      have hid : p.2.id ≠ l.id := by
        rw [← hpid]
        exact hne
      have hdisj2 := hA p.2 hpA l hlA hid
      have hs := hdisj2 p.2.source_interface (by simp [link_ifaces])
      have ht := hdisj2 p.2.target_interface (by simp [link_ifaces])
      simp only [link_ifaces, List.mem_cons, List.not_mem_nil, or_false,
        not_or] at hs ht
      obtain ⟨hc1, hc2⟩ := h2 p hmem
      constructor
      · rw [dlookup_dinsert_ne _ _ _ _ hs.2, dlookup_dinsert_ne _ _ _ _ hs.1]
        exact hc1
      · rw [dlookup_dinsert_ne _ _ _ _ ht.2, dlookup_dinsert_ne _ _ _ _ ht.1]
        exact hc2

theorem remove_link_inv (A : List Link)
    (hA : ∀ l1 ∈ A, ∀ l2 ∈ A, l1.id ≠ l2.id →
      ∀ i ∈ link_ifaces l1, i ∉ link_ifaces l2)
    (svc : LinkStateService) (lid : String)
    (h1 : ∀ p ∈ svc.links, p.1 = p.2.id ∧ p.2 ∈ A)
    (h2 : index_consistent svc) :
    (∀ p ∈ (remove_link svc lid).links, p.1 = p.2.id ∧ p.2 ∈ A) ∧
      index_consistent (remove_link svc lid) := by
  rcases hl : dlookup svc.links lid with _ | link
  · simp only [remove_link, hl]
    exact ⟨h1, h2⟩
  · have hmeml : (lid, link) ∈ svc.links := dlookup_mem hl
    obtain ⟨hlid, hlA⟩ := h1 _ hmeml
    constructor
    · intro p hp
      simp only [remove_link, hl] at hp
      exact h1 p (mem_derase hp).1
    · intro p hp
      simp only [remove_link, hl] at hp ⊢
      obtain ⟨hpm, hpne⟩ := mem_derase hp
      obtain ⟨hpid, hpA⟩ := h1 p hpm
      have hid : p.2.id ≠ link.id := by
        intro heq
        apply hpne
        rw [hpid, heq, ← hlid]
      have hdisj2 := hA p.2 hpA link hlA hid
      have hs := hdisj2 p.2.source_interface (by simp [link_ifaces])
      have ht := hdisj2 p.2.target_interface (by simp [link_ifaces])
      simp only [link_ifaces, List.mem_cons, List.not_mem_nil, or_false,
        not_or] at hs ht
      obtain ⟨hc1, hc2⟩ := h2 p hpm
      constructor
      · rw [dlookup_derase_ne _ _ _ hs.2, dlookup_derase_ne _ _ _ hs.1]
        exact hc1
      · rw [dlookup_derase_ne _ _ _ ht.2, dlookup_derase_ne _ _ _ ht.1]
        exact hc2

theorem apply_ops_inv (A : List Link)
    (hA : ∀ l1 ∈ A, ∀ l2 ∈ A, l1.id ≠ l2.id →
      ∀ i ∈ link_ifaces l1, i ∉ link_ifaces l2) :
    ∀ (ops : List StoreOp) (svc : LinkStateService),
      (∀ l ∈ ops.filterMap op_add, l ∈ A) →
      (∀ p ∈ svc.links, p.1 = p.2.id ∧ p.2 ∈ A) → index_consistent svc →
      (∀ p ∈ (apply_ops svc ops).links, p.1 = p.2.id ∧ p.2 ∈ A) ∧
        index_consistent (apply_ops svc ops) := by
  intro ops
  induction ops with
  | nil => intro svc _ h1 h2; exact ⟨h1, h2⟩
  | cons op rest ih =>
      intro svc hsub h1 h2
      have hsub2 : ∀ l ∈ rest.filterMap op_add, l ∈ A := by
        intro l hl
        apply hsub
        cases op with
        | add l2 =>
            rw [List.filterMap_cons]
            simp only [op_add]
            exact List.mem_cons_of_mem _ hl
        | remove lid =>
            rw [List.filterMap_cons]
            simp only [op_add]
            exact hl
      simp only [apply_ops]
      cases op with
      | add l2 =>
          have hl2A : l2 ∈ A := hsub l2 (by
            rw [List.filterMap_cons]
            simp only [op_add]
            exact List.mem_cons_self _ _)
          obtain ⟨s1, s2⟩ := add_link_inv A hA svc l2 hl2A h1 h2
          exact ih (add_link svc l2) hsub2 s1 s2
      | remove lid =>
          obtain ⟨s1, s2⟩ := remove_link_inv A hA svc lid h1 h2
          exact ih (remove_link svc lid) hsub2 s1 s2

/-- C8 (amended): after any sequence of `add_link` and `remove_link`
operations from an empty store in which added links with distinct ids never
share an interface name, every link present in the store has both of its
interface names as keys of the interface→link index, each mapping to that
link's id. On an interface-name collision the newer write wins in the index,
which breaks the invariant for the older link — see the counterexample. -/
theorem link_index_invariant (ops : List StoreOp)
    (hdisj : ∀ l1 ∈ ops.filterMap op_add, ∀ l2 ∈ ops.filterMap op_add,
      l1.id ≠ l2.id → ∀ i ∈ link_ifaces l1, i ∉ link_ifaces l2) :
    index_consistent (apply_ops LinkStateService.init ops) := by
  have h := apply_ops_inv (ops.filterMap op_add) hdisj ops LinkStateService.init
    (fun l hl => hl)
    (by intro p hp; simp [LinkStateService.init] at hp)
    (by intro p hp; simp [LinkStateService.init] at hp)
  exact h.2

/-- Link `A` over interfaces `i1`, `i2`. -/
def linkA : Link :=
  { id := "lab/a-b", lab := "lab", source := "lab/a", target := "lab/b",
    source_interface := "i1", target_interface := "i2", state := .UNKNOWN,
    metrics := LinkMetrics.zero, speed_mbps := 0, mtu := 1500,
    last_updated := 0, metadata := [] }

/-- Link `B`, colliding with `A` on interface `i1`. -/
def linkB : Link :=
  { id := "lab/a-c", lab := "lab", source := "lab/a", target := "lab/c",
    source_interface := "i1", target_interface := "i3", state := .UNKNOWN,
    metrics := LinkMetrics.zero, speed_mbps := 0, mtu := 1500,
    last_updated := 0, metadata := [] }

/-- Link `C`, with interfaces disjoint from `A`. -/
def linkC : Link :=
  { id := "lab/a-c", lab := "lab", source := "lab/a", target := "lab/c",
    source_interface := "i3", target_interface := "i4", state := .UNKNOWN,
    metrics := LinkMetrics.zero, speed_mbps := 0, mtu := 1500,
    last_updated := 0, metadata := [] }

/-- C8 counterexample: adding two links that share the interface name `i1`
leaves the older link in the store while the index maps `i1` to the newer
link's id, so the claimed invariant fails; after removing the newer link,
`i1` is absent from the index entirely although the older link is stored. -/
theorem link_index_counterexample :
    ¬ index_consistent (apply_ops LinkStateService.init [.add linkA, .add linkB]) ∧
    dlookup (apply_ops LinkStateService.init [.add linkA, .add linkB]).links
      linkA.id = some linkA ∧
    dlookup (apply_ops LinkStateService.init
      [.add linkA, .add linkB]).interface_to_link "i1" = some linkB.id ∧
    linkB.id ≠ linkA.id ∧
    dlookup (apply_ops LinkStateService.init
      [.add linkA, .add linkB, .remove linkB.id]).interface_to_link "i1"
      = none := by
  refine ⟨?_, by decide, by decide, by decide, by decide⟩
  intro hcon
  have h := hcon ("lab/a-b", linkA) (by decide)
  exact absurd h.1 (by decide)

theorem link_index_invariant_witness :
    index_consistent (apply_ops LinkStateService.init
      [.add linkA, .add linkC, .remove linkA.id]) :=
  link_index_invariant [.add linkA, .add linkC, .remove linkA.id] (by decide)

end NetMon
